import Mathlib

set_option maxHeartbeats 1000000

/-! Verification development for the livesim2 CMAF ingester
    (cmd/livesim2/app/cmaf-ingester.go).

    The Go code is shallowly embedded: collaborator functions that live in
    other files of the repository (config resolution, asset lookup, MPD
    generation, segment production, timeline generation) are passed in as
    explicit function parameters; stateful loops become explicit
    state-passing functions over an event trace; machine integers become
    Int with explicit wrap-around where a Go conversion truncates. -/

/-- Request to create a CMAF ingester (Go struct CmafIngesterRequest,
    cmaf-ingester.go lines 22-28). -/
structure CmafIngesterRequest where
  user : String
  passWord : String
  dest : String
  url : String
  testNowMS : Option Int
  deriving DecidableEq, Repr

/-- Lifecycle state of the ingester manager (Go type ingesterState,
    lines 30-36). -/
inductive ingesterState where
  | notStarted
  | running
  | stopped
  deriving DecidableEq, Repr

/-- Per-representation data kept by a session (Go struct cmafRepData,
    lines 149-155). -/
structure cmafRepData where
  repID : String
  contentType : String
  mimeType : String
  initPath : String
  mediaPattern : String
  deriving DecidableEq, Repr

/-- Stand-in for the resolved ResponseConfig: the only field the create
    path inspects directly is the URL content part (line 80). -/
structure responseConfigTok where
  urlContentPart : String
  deriving DecidableEq, Repr

/-- Stand-in for a located asset handle (line 82). -/
structure assetTok where
  name : String
  deriving DecidableEq, Repr

/-- Representation inside the generated MPD, exposing the fields the
    create path reads (lines 117-126): id and the segment template
    initialization and media attributes. -/
structure mpdRepresentation where
  id : String
  initialization : String
  media : String
  deriving DecidableEq, Repr

/-- Adaptation set inside the generated MPD (lines 96-129). -/
structure mpdAdaptationSet where
  contentType : String
  representations : List mpdRepresentation
  deriving DecidableEq, Repr

/-- First period of the generated MPD (line 94: liveMPD.Periods[0]). -/
structure mpdPeriod where
  adaptationSets : List mpdAdaptationSet
  deriving DecidableEq, Repr

/-- Collaborator results consulted by one call to NewCmafIngester.
    cfgFromRequest, findAsset, LiveMPD, orderAdaptationSetsByContentType
    and replaceIdentifiers are defined in other files of the repository,
    so they enter the model as explicit parameters. -/
structure CreateEnv where
  cfgFromRequest : Except String (Int × responseConfigTok)
  findAsset : String → Option assetTok
  liveMPD : Except String mpdPeriod
  orderAdaptationSets : List mpdAdaptationSet → List mpdAdaptationSet
  replaceIdentifiers : mpdRepresentation → String → String

/-- Session data stored in the manager map (Go struct cmafIngester,
    lines 131-146, restricted to the plain data fields). -/
structure cmafIngesterData where
  user : String
  passWord : String
  dest : String
  url : String
  testNowMS : Option Int
  repsData : List cmafRepData
  deriving DecidableEq, Repr

/-- The ingester manager (Go struct cmafIngesterMgr, lines 38-43):
    an id counter, the map of ingesters and the lifecycle state. -/
structure cmafIngesterMgr where
  nr : Nat
  ingesters : List (Nat × cmafIngesterData)
  state : ingesterState
  deriving DecidableEq, Repr

/-- Constructor NewCmafIngesterMgr (lines 45-51). -/
def newCmafIngesterMgr : cmafIngesterMgr :=
  { nr := 0, ingesters := [], state := ingesterState.notStarted }

/-- Start of the manager (lines 53-55). -/
def mgrStart (cm : cmafIngesterMgr) : cmafIngesterMgr :=
  { cm with state := ingesterState.running }

/-- Mime type selected per content type (lines 106-116); none models the
    default branch returning an unknown content type error. -/
def mimeTypeFor (ct : String) : Option String :=
  if ct = "video" then some "video/mp4"
  else if ct = "audio" then some "audio/mp4"
  else if ct = "text" then some "application/mp4"
  else none

/-- Derivation of the per-representation data from the ordered adaptation
    sets (lines 104-129). An unknown content type aborts with an error. -/
def buildRepsData (env : CreateEnv) : List mpdAdaptationSet → Except String (List cmafRepData)
  | [] => Except.ok []
  | a :: rest =>
    match mimeTypeFor a.contentType with
    | none => Except.error s!"unknown content type: {a.contentType}"
    | some mt =>
      let rds := a.representations.map (fun r =>
        { repID := r.id
          contentType := a.contentType
          mimeType := mt
          initPath := env.replaceIdentifiers r r.initialization
          mediaPattern := env.replaceIdentifiers r r.media : cmafRepData })
      match buildRepsData env rest with
      | Except.error e => Except.error e
      | Except.ok more => Except.ok (rds ++ more)

/-- Creation of a new ingester (Go method NewCmafIngester, lines 57-147).
    The CAS loop on the atomic counter (lines 61-67) becomes, in this
    sequential embedding, the increment nr+1; the allocation happens right
    after the running-state check and before any of the fallible
    collaborator calls, so a later failure leaves the counter bumped. -/
def newCmafIngester (cm : cmafIngesterMgr) (env : CreateEnv) (req : CmafIngesterRequest) :
    Except String Nat × cmafIngesterMgr :=
  if cm.state = ingesterState.running then
    let nr := cm.nr + 1
    let cm1 := { cm with nr := nr }
    match env.cfgFromRequest with
    | Except.error e => (Except.error s!"failed to get config from request: {e}", cm1)
    | Except.ok (_nowMS, cfg) =>
      match env.findAsset cfg.urlContentPart with
      | none => (Except.error s!"unknown asset {cfg.urlContentPart}", cm1)
      | some _asset =>
        match env.liveMPD with
        | Except.error e => (Except.error s!"failed to generate live MPD: {e}", cm1)
        | Except.ok period =>
          match buildRepsData env (env.orderAdaptationSets period.adaptationSets) with
          | Except.error e => (Except.error e, cm1)
          | Except.ok repsData =>
            let c : cmafIngesterData :=
              { user := req.user, passWord := req.passWord, dest := req.dest,
                url := req.url, testNowMS := req.testNowMS, repsData := repsData }
            (Except.ok nr, { cm1 with ingesters := cm1.ingesters ++ [(nr, c)] })
  else
    (Except.error "CMAF ingester manager not running", cm)

/-- Operations that can hit the manager over its lifetime. Session
    removal is not part of cmaf-ingester.go.
    Modelled from the spec: removal of a stopped session deletes its map
    entry only ("destroyed when removed from the Registry") and does not
    touch the id counter. -/
inductive MgrOp where
  | create (env : CreateEnv) (req : CmafIngesterRequest)
  | remove (id : Nat)

/-- Apply one manager operation; create returns its result. -/
def applyOp (cm : cmafIngesterMgr) : MgrOp → cmafIngesterMgr × Option (Except String Nat)
  | MgrOp.create env req =>
    let r := newCmafIngester cm env req
    (r.2, some r.1)
  | MgrOp.remove id =>
    ({ cm with ingesters := cm.ingesters.filter (fun p => p.1 ≠ id) }, none)

/-- Run a sequence of manager operations, collecting the create results
    in order. -/
def runOps (cm : cmafIngesterMgr) : List MgrOp → cmafIngesterMgr × List (Except String Nat)
  | [] => (cm, [])
  | op :: rest =>
    let s := applyOp cm op
    let t := runOps s.1 rest
    match s.2 with
    | some r => (t.1, r :: t.2)
    | none => t

/-- Ids of the successful create results, in order. -/
def okIds : List (Except String Nat) → List Nat
  | [] => []
  | Except.ok n :: rest => n :: okIds rest
  | Except.error _ :: rest => okIds rest

/- Helper lemmas about the manager. -/

theorem newCmafIngester_nr_le (cm : cmafIngesterMgr) (env : CreateEnv)
    (req : CmafIngesterRequest) : cm.nr ≤ (newCmafIngester cm env req).2.nr := by
  unfold newCmafIngester
  by_cases h : cm.state = ingesterState.running
  · simp only [h, if_pos rfl]
    cases env.cfgFromRequest with
    | error e => simp
    | ok p =>
      cases hfa : env.findAsset p.2.urlContentPart with
      | none => simp [hfa]
      | some a =>
        cases env.liveMPD with
        | error e => simp [hfa]
        | ok period =>
          cases hb : buildRepsData env (env.orderAdaptationSets period.adaptationSets) with
          | error e => simp [hfa, hb]
          | ok reps => simp [hfa, hb]
  · simp [h]

theorem newCmafIngester_ok_id (cm : cmafIngesterMgr) (env : CreateEnv)
    (req : CmafIngesterRequest) (n : Nat)
    (h : (newCmafIngester cm env req).1 = Except.ok n) :
    n = cm.nr + 1 ∧ (newCmafIngester cm env req).2.nr = cm.nr + 1 := by
  by_cases hs : cm.state = ingesterState.running
  · rcases hc : env.cfgFromRequest with e | p
    · simp [newCmafIngester, hs, hc] at h
    · rcases hfa : env.findAsset p.2.urlContentPart with _ | a
      · simp [newCmafIngester, hs, hc, hfa] at h
      · rcases hm : env.liveMPD with e | period
        · simp [newCmafIngester, hs, hc, hfa, hm] at h
        · rcases hb : buildRepsData env (env.orderAdaptationSets period.adaptationSets)
            with e | reps
          · simp [newCmafIngester, hs, hc, hfa, hm, hb] at h
          · refine ⟨?_, by simp [newCmafIngester, hs, hc, hfa, hm, hb]⟩
            simp [newCmafIngester, hs, hc, hfa, hm, hb] at h
            exact h.symm
  · simp [newCmafIngester, hs] at h

theorem applyOp_nr_le (cm : cmafIngesterMgr) (op : MgrOp) :
    cm.nr ≤ (applyOp cm op).1.nr := by
  cases op with
  | create env req => exact newCmafIngester_nr_le cm env req
  | remove id => simp [applyOp]

theorem runOps_nr_le (ops : List MgrOp) (cm : cmafIngesterMgr) :
    cm.nr ≤ (runOps cm ops).1.nr := by
  induction ops generalizing cm with
  | nil => simp [runOps]
  | cons op rest ih =>
    have h1 := applyOp_nr_le cm op
    have h2 := ih (applyOp cm op).1
    unfold runOps
    cases hop : (applyOp cm op).2 with
    | some r => simpa [hop] using le_trans h1 h2
    | none => simpa [hop] using le_trans h1 h2

theorem okIds_runOps_lt (ops : List MgrOp) (cm : cmafIngesterMgr) :
    ∀ i ∈ okIds (runOps cm ops).2, cm.nr < i := by
  induction ops generalizing cm with
  | nil => simp [runOps, okIds]
  | cons op rest ih =>
    intro i hi
    unfold runOps at hi
    cases op with
    | create env req =>
      simp only [applyOp] at hi
      cases hr : (newCmafIngester cm env req).1 with
      | error e =>
        simp only [hr, okIds] at hi
        have := ih (newCmafIngester cm env req).2 i hi
        exact lt_of_le_of_lt (newCmafIngester_nr_le cm env req) this
      | ok n =>
        simp only [hr, okIds, List.mem_cons] at hi
        obtain ⟨hn, hnr⟩ := newCmafIngester_ok_id cm env req n hr
        rcases hi with rfl | hi
        · omega
        · have := ih (newCmafIngester cm env req).2 i hi
          omega
    | remove id =>
      simp only [applyOp] at hi
      have := ih { cm with ingesters := cm.ingesters.filter (fun p => p.1 ≠ id) } i hi
      simpa using this

/- Witness fixtures: a concrete environment whose config resolution fails,
   and a concrete request. -/

/-- Concrete collaborator environment whose config resolution fails. -/
def envFailCfg : CreateEnv :=
  { cfgFromRequest := Except.error "bad url"
    findAsset := fun _ => none
    liveMPD := Except.error "no mpd"
    orderAdaptationSets := fun l => l
    replaceIdentifiers := fun _ s => s }

/-- Concrete create request used in witnesses. -/
def reqW : CmafIngesterRequest :=
  { user := "u", passWord := "p", dest := "http://dest"
    url := "/livesim2/testpic_2s/Manifest.mpd", testNowMS := some 0 }

/-- Concrete manager in the notStarted state. -/
def cmNotStarted : cmafIngesterMgr :=
  { nr := 0, ingesters := [], state := ingesterState.notStarted }

/-- Concrete manager in the running state with five ids already consumed. -/
def cmRunning5 : cmafIngesterMgr :=
  { nr := 5, ingesters := [], state := ingesterState.running }

/-- C6: over any sequence of manager operations (creates, including failed
    ones, and removals of stopped sessions), the ids handed out by the
    successful create calls are strictly increasing, hence pairwise
    distinct and never reused, for the whole process lifetime. -/
theorem createIds_strictly_increasing (cm : cmafIngesterMgr) (ops : List MgrOp) :
    List.Pairwise (· < ·) (okIds (runOps cm ops).2) := by
  induction ops generalizing cm with
  | nil => simp [runOps, okIds]
  | cons op rest ih =>
    unfold runOps
    cases op with
    | create env req =>
      simp only [applyOp]
      cases hr : (newCmafIngester cm env req).1 with
      | error e =>
        simpa [hr, okIds] using ih (newCmafIngester cm env req).2
      | ok n =>
        simp only [hr, okIds]
        refine List.pairwise_cons.mpr ⟨?_, ih (newCmafIngester cm env req).2⟩
        intro b hb
        obtain ⟨hn, hnr⟩ := newCmafIngester_ok_id cm env req n hr
        have hlt := okIds_runOps_lt rest (newCmafIngester cm env req).2 b hb
        omega
    | remove id =>
      simpa [applyOp] using ih { cm with ingesters := cm.ingesters.filter (fun p => p.1 ≠ id) }

/-- C7: creating an ingester while the manager is not in the running state
    fails with the not-running error and leaves the manager unchanged:
    no session is stored and no id is allocated (lines 58-60). -/
theorem create_not_running (cm : cmafIngesterMgr) (env : CreateEnv) (req : CmafIngesterRequest)
    (h : cm.state ≠ ingesterState.running) :
    newCmafIngester cm env req = (Except.error "CMAF ingester manager not running", cm) := by
  simp [newCmafIngester, h]

/-- Witness for C7 at a concrete not-started manager. -/
theorem create_not_running_witness :
    newCmafIngester cmNotStarted envFailCfg reqW
      = (Except.error "CMAF ingester manager not running", cmNotStarted) :=
  create_not_running cmNotStarted envFailCfg reqW (by decide)

/-- C10: a create call that fails after the id allocation (config
    resolution failure, unknown asset, MPD failure or unsupported content
    type) consumes the id: the counter stays incremented, while the
    ingester map and the lifecycle state are unchanged, so the id is never
    bound to any session and the set of bound ids can have gaps. -/
theorem create_failure_consumes_id (cm : cmafIngesterMgr) (env : CreateEnv)
    (req : CmafIngesterRequest)
    (hrun : cm.state = ingesterState.running)
    (hfail : ∀ n, (newCmafIngester cm env req).1 ≠ Except.ok n) :
    (newCmafIngester cm env req).2.nr = cm.nr + 1
    ∧ (newCmafIngester cm env req).2.ingesters = cm.ingesters
    ∧ (newCmafIngester cm env req).2.state = cm.state := by
  rcases hc : env.cfgFromRequest with e | p
  · simp [newCmafIngester, hrun, hc]
  · rcases hfa : env.findAsset p.2.urlContentPart with _ | a
    · simp [newCmafIngester, hrun, hc, hfa]
    · rcases hm : env.liveMPD with e | period
      · simp [newCmafIngester, hrun, hc, hfa, hm]
      · rcases hb : buildRepsData env (env.orderAdaptationSets period.adaptationSets)
          with e | reps
        · simp [newCmafIngester, hrun, hc, hfa, hm, hb]
        · have hok : (newCmafIngester cm env req).1 = Except.ok (cm.nr + 1) := by
            simp [newCmafIngester, hrun, hc, hfa, hm, hb]
          exact absurd hok (hfail (cm.nr + 1))

/-- Witness for C10: a failing config resolution at a running manager with
    five ids consumed bumps the counter to six and binds nothing. -/
theorem create_failure_consumes_id_witness :
    (newCmafIngester cmRunning5 envFailCfg reqW).2.nr = 5 + 1
    ∧ (newCmafIngester cmRunning5 envFailCfg reqW).2.ingesters = cmRunning5.ingesters
    ∧ (newCmafIngester cmRunning5 envFailCfg reqW).2.state = cmRunning5.state :=
  create_failure_consumes_id cmRunning5 envFailCfg reqW rfl
    (fun n h => by simp [newCmafIngester, envFailCfg, cmRunning5] at h)

/- Session start: init-segment phase (lines 181-235) and first-segment
   scheduling (lines 237-255). -/

/-- Result of matchTimeSubsInitLang for one representation (line 189):
    whether the init path matches the time-subtitles pattern, and the
    error returned alongside. -/
structure TimeSubsRes where
  ok : Bool
  err : Option String
  deriving DecidableEq, Repr

/-- Collaborator outcomes consulted by the init phase of start, one
    entry per fallible step. matchTimeSubsInitLang,
    createTimeSubsInitSegment, EncodeSW, matchInit and the HTTP PUT of
    sendInitSegment live outside this function, so their outcomes are
    parameters of the model. -/
structure InitEnv where
  timeSubs : cmafRepData → TimeSubsRes
  encodeErr : cmafRepData → Option String
  matchInitErr : cmafRepData → Option String
  matchIsInit : cmafRepData → Bool
  sendInitErr : cmafRepData → Option String

/-- Init handling for one representation (lines 188-235): the report
    lines appended and whether start returns early (aborting the
    session). In the time-subtitles branch a match error or an encode
    error returns from start; in the asset-derived branch a failed init
    match, a missing isInit flag, and a failed init push are each only
    reported, and processing continues. -/
def initRepStep (env : InitEnv) (rd : cmafRepData) : List String × Bool :=
  let ts := env.timeSubs rd
  if ts.ok then
    match ts.err with
    | some e => ([s!"error matching time subs init lang: {e}"], true)
    | none =>
      match env.encodeErr rd with
      | some e => ([s!"Error encoding init segment: {e}"], true)
      | none => ([], false)
  else
    let r1 := match env.matchInitErr rd with
      | some e => [s!"Error matching init segment: {e}"]
      | none => []
    let r2 := if env.matchIsInit rd then [] else ["Error matching init segment: <nil>"]
    let r3 := match env.sendInitErr rd with
      | some e => [s!"error uploading init segment: {e}"]
      | none => []
    (r1 ++ r2 ++ r3, false)

/-- Init phase over the representation list (the for-loop at line 188):
    accumulated report lines and whether start aborted. -/
def startInit (env : InitEnv) : List cmafRepData → List String × Bool
  | [] => ([], false)
  | rd :: rest =>
    let s := initRepStep env rd
    if s.2 then (s.1, true)
    else
      let t := startInit env rest
      (s.1 ++ t.1, t.2)

/-- Now at session start (lines 238-243): the fixed simulated time when
    TestNowMS is set, the wall clock in milliseconds otherwise. -/
def nowAtStart : Option Int → Int → Int
  | some t, _ => t
  | none, w => w

/-- Go conversion int to uint32 (line 249): two-complement truncation. -/
def toUInt32Wrap (n : Int) : Nat := (n % 4294967296).toNat

/-- First-segment scheduling (lines 245-255): the next segment number is
    one past the last segment available at now for the asset reference
    representation, and its availability time is computed; an availability
    error aborts start. findLastSegNr and calcSegmentAvailabilityTime are
    collaborators, passed as parameters. -/
def startScheduleModel (findLast : Int → Int) (calcAvail : Nat → Except String Int)
    (testNowMS : Option Int) (wallNowMS : Int) : Except String (Int × Int) :=
  let nowMS := nowAtStart testNowMS wallNowMS
  let nextSegNr := findLast nowMS + 1
  match calcAvail (toUInt32Wrap nextSegNr) with
  | Except.error e => Except.error e
  | Except.ok avail => Except.ok (nextSegNr, avail)

/-- Whole start prefix: init phase, then first-segment scheduling. The
    returned Option carries the (nextSegNr, availabilityTime) pair when
    the session goes on to enter its main loop, none when start returned
    early. -/
def startModel (env : InitEnv) (reps : List cmafRepData)
    (findLast : Int → Int) (calcAvail : Nat → Except String Int)
    (testNowMS : Option Int) (wallNowMS : Int) : Option (Int × Int) × List String :=
  let s := startInit env reps
  if s.2 then (none, s.1)
  else
    match startScheduleModel findLast calcAvail testNowMS wallNowMS with
    | Except.error e => (none, s.1 ++ [s!"Error calculating segment availability time: {e}"])
    | Except.ok p => (some p, s.1)

/- Main segment loop, fixed-simulated-time mode (TestNowMS set).
   Lines 257-330 with every block guarded by TestNowMS == nil skipped:
   the timer is armed once, at session start, for 24 hours (line 258)
   and is never reset; the loop waits on the timer channel, the
   nextSegTrigger channel and context cancellation (lines 272-280). -/

/-- Collaborators of the loop: sendMediaSegments outcome per
    (segment number, nowMS argument), and calcSegmentAvailabilityTime. -/
structure TestLoopCfg where
  sendRound : Int → Int → Option String
  calcAvail : Nat → Except String Int

/-- State of the test-mode loop. pushed records the segment numbers for
    which sendMediaSegments was invoked, in order. timerFired records
    that the single 24-hour timer channel has already delivered. -/
structure TestLoopState where
  nextSegNr : Int
  availabilityTime : Int
  timerFired : Bool
  timerDeadline : Int
  pushed : List Int
  report : List String
  stopped : Bool
  deriving DecidableEq, Repr

/-- Wake-up events the select at lines 272-280 can observe: the timer
    channel delivering at some wall-clock instant, the explicit advance
    signal (triggerNextSegment, lines 375-377), or cancellation. -/
inductive TestEvent where
  | timerC (wallMS : Int)
  | trigger
  | cancel
  deriving DecidableEq, Repr

/-- Round push in test mode (lines 281-295): sendMediaSegments with the
    current segment number and int(availabilityTime); an error stops the
    session, otherwise the segment number advances and availability is
    recomputed (with the Go uint32 conversion), an error there also
    stopping the session. -/
def pushRoundTest (cfg : TestLoopCfg) (st : TestLoopState) : TestLoopState :=
  match cfg.sendRound st.nextSegNr st.availabilityTime with
  | some e =>
    { st with
      pushed := st.pushed ++ [st.nextSegNr],
      report := st.report ++ [s!"Error sending media segments: {e}"],
      stopped := true }
  | none =>
    match cfg.calcAvail (toUInt32Wrap (st.nextSegNr + 1)) with
    | Except.error e =>
      { st with
        pushed := st.pushed ++ [st.nextSegNr],
        nextSegNr := st.nextSegNr + 1,
        report := st.report ++ [s!"Error calculating segment availability time: {e}"],
        stopped := true }
    | Except.ok a =>
      { st with
        pushed := st.pushed ++ [st.nextSegNr],
        nextSegNr := st.nextSegNr + 1,
        availabilityTime := a }

/-- One observed wake-up of the test-mode loop. A timer event can only
    deliver if the timer has not yet fired and its deadline has been
    reached; an earlier timer event is no wake-up at all. Once stopped,
    the loop consumes nothing. -/
def testLoopStep (cfg : TestLoopCfg) (st : TestLoopState) : TestEvent → TestLoopState
  | TestEvent.cancel => if st.stopped then st else { st with stopped := true }
  | TestEvent.trigger => if st.stopped then st else pushRoundTest cfg st
  | TestEvent.timerC w =>
    if st.stopped then st
    else if st.timerFired = false ∧ st.timerDeadline ≤ w then
      pushRoundTest cfg { st with timerFired := true }
    else st

/-- Run of the test-mode loop over a trace of wake-up events. -/
def testLoopRun (cfg : TestLoopCfg) (st : TestLoopState) : List TestEvent → TestLoopState
  | [] => st
  | e :: rest => testLoopRun cfg (testLoopStep cfg st e) rest

/-- Initial test-mode loop state: 24 hours is 86400000 milliseconds, the
    deadline of the timer armed at wall instant armWallMS (lines 257-262). -/
def initTestLoop (armWallMS nextSegNr avail : Int) : TestLoopState :=
  { nextSegNr := nextSegNr, availabilityTime := avail, timerFired := false,
    timerDeadline := armWallMS + 86400000, pushed := [], report := [], stopped := false }

theorem pushRoundTest_pushed (cfg : TestLoopCfg) (st : TestLoopState) :
    (pushRoundTest cfg st).pushed = st.pushed ++ [st.nextSegNr] := by
  rcases hs : cfg.sendRound st.nextSegNr st.availabilityTime with _ | e
  · rcases hc : cfg.calcAvail (toUInt32Wrap (st.nextSegNr + 1)) with e | a
    · simp [pushRoundTest, hs, hc]
    · simp [pushRoundTest, hs, hc]
  · simp [pushRoundTest, hs]

theorem testLoopStep_pushed_append (cfg : TestLoopCfg) (st : TestLoopState) (e : TestEvent) :
    ∃ l, (testLoopStep cfg st e).pushed = st.pushed ++ l := by
  cases e with
  | cancel =>
    by_cases hs : st.stopped <;> exact ⟨[], by simp [testLoopStep, hs]⟩
  | trigger =>
    by_cases hs : st.stopped
    · exact ⟨[], by simp [testLoopStep, hs]⟩
    · exact ⟨[st.nextSegNr], by simp [testLoopStep, hs, pushRoundTest_pushed]⟩
  | timerC w =>
    by_cases hs : st.stopped
    · exact ⟨[], by simp [testLoopStep, hs]⟩
    · by_cases hc : st.timerFired = false ∧ st.timerDeadline ≤ w
      · exact ⟨[st.nextSegNr], by simp [testLoopStep, hs, hc, pushRoundTest_pushed]⟩
      · exact ⟨[], by simp [testLoopStep, hs, hc]⟩

theorem testLoopRun_pushed_append (cfg : TestLoopCfg) :
    ∀ (evs : List TestEvent) (st : TestLoopState),
      ∃ l, (testLoopRun cfg st evs).pushed = st.pushed ++ l := by
  intro evs
  induction evs with
  | nil => intro st; exact ⟨[], by simp [testLoopRun]⟩
  | cons e rest ih =>
    intro st
    obtain ⟨l1, h1⟩ := testLoopStep_pushed_append cfg st e
    obtain ⟨l2, h2⟩ := ih (testLoopStep cfg st e)
    exact ⟨l1 ++ l2, by simp [testLoopRun, h2, h1]⟩

theorem testLoopRun_first_push (cfg : TestLoopCfg) :
    ∀ (evs : List TestEvent) (st : TestLoopState), st.pushed = [] →
      (testLoopRun cfg st evs).pushed = []
      ∨ (testLoopRun cfg st evs).pushed.head? = some st.nextSegNr := by
  intro evs
  induction evs with
  | nil =>
    intro st h
    left
    simpa [testLoopRun] using h
  | cons e rest ih =>
    intro st h
    by_cases hs : st.stopped
    · have hstep : testLoopStep cfg st e = st := by
        cases e <;> simp [testLoopStep, hs]
      rw [testLoopRun, hstep]
      exact ih st h
    · cases e with
      | cancel =>
        have hstep : testLoopStep cfg st TestEvent.cancel = { st with stopped := true } := by
          simp [testLoopStep, hs]
        rw [testLoopRun, hstep]
        exact ih { st with stopped := true } (by simpa using h)
      | trigger =>
        have hstep : testLoopStep cfg st TestEvent.trigger = pushRoundTest cfg st := by
          simp [testLoopStep, hs]
        right
        obtain ⟨l, hl⟩ := testLoopRun_pushed_append cfg rest (pushRoundTest cfg st)
        rw [testLoopRun, hstep, hl, pushRoundTest_pushed, h]
        simp
      | timerC w =>
        by_cases hc : st.timerFired = false ∧ st.timerDeadline ≤ w
        · have hstep : testLoopStep cfg st (TestEvent.timerC w)
              = pushRoundTest cfg { st with timerFired := true } := by
            simp [testLoopStep, hs, hc]
          right
          obtain ⟨l, hl⟩ :=
            testLoopRun_pushed_append cfg rest (pushRoundTest cfg { st with timerFired := true })
          rw [testLoopRun, hstep, hl, pushRoundTest_pushed]
          simp [h]
        · have hstep : testLoopStep cfg st (TestEvent.timerC w) = st := by
            simp [testLoopStep, hs, hc]
          rw [testLoopRun, hstep]
          exact ih st h

theorem testLoopRun_pushed_nil (cfg : TestLoopCfg) (D : Int) :
    ∀ (evs : List TestEvent) (st : TestLoopState),
      st.pushed = [] → st.timerDeadline = D →
      (∀ e ∈ evs, e ≠ TestEvent.trigger) →
      (∀ w, TestEvent.timerC w ∈ evs → w < D) →
      (testLoopRun cfg st evs).pushed = [] := by
  intro evs
  induction evs with
  | nil =>
    intro st h1 _ _ _
    simpa [testLoopRun] using h1
  | cons e rest ih =>
    intro st h1 h2 hnt hw
    have hnt2 : ∀ x ∈ rest, x ≠ TestEvent.trigger := fun x hx => hnt x (List.mem_cons_of_mem _ hx)
    have hw2 : ∀ w, TestEvent.timerC w ∈ rest → w < D :=
      fun w hx => hw w (List.mem_cons_of_mem _ hx)
    by_cases hs : st.stopped
    · have hstep : testLoopStep cfg st e = st := by
        cases e <;> simp [testLoopStep, hs]
      rw [testLoopRun, hstep]
      exact ih st h1 h2 hnt2 hw2
    · cases e with
      | cancel =>
        have hstep : testLoopStep cfg st TestEvent.cancel = { st with stopped := true } := by
          simp [testLoopStep, hs]
        rw [testLoopRun, hstep]
        exact ih { st with stopped := true } (by simpa using h1) (by simpa using h2) hnt2 hw2
      | trigger =>
        exact absurd rfl (hnt TestEvent.trigger (List.mem_cons_self _ _))
      | timerC w =>
        have hlt : w < D := hw w (List.mem_cons_self _ _)
        have hc : ¬(st.timerFired = false ∧ st.timerDeadline ≤ w) := by
          rintro ⟨_, hle⟩
          omega
        have hstep : testLoopStep cfg st (TestEvent.timerC w) = st := by
          simp [testLoopStep, hs, hc]
        rw [testLoopRun, hstep]
        exact ih st h1 h2 hnt2 hw2

/-- C1 (amended): in fixed-simulated-time mode the loop pushes no round
    without an explicit advance signal as long as the 24-hour timer armed
    at session start has not yet reached its deadline; the code arms a
    24-hour timer (line 258) rather than waiting forever, so the guarantee
    holds for any amount of elapsed wall-clock time below 24 hours. -/
theorem testMode_no_push_without_trigger (cfg : TestLoopCfg) (armWallMS nr a : Int)
    (evs : List TestEvent)
    (hnt : ∀ e ∈ evs, e ≠ TestEvent.trigger)
    (hw : ∀ w, TestEvent.timerC w ∈ evs → w < armWallMS + 86400000) :
    (testLoopRun cfg (initTestLoop armWallMS nr a) evs).pushed = [] :=
  testLoopRun_pushed_nil cfg (armWallMS + 86400000) evs (initTestLoop armWallMS nr a)
    rfl rfl hnt hw

/-- Loop collaborators that always succeed, for concrete executions. -/
def cfgTrivial : TestLoopCfg :=
  { sendRound := fun _ _ => none, calcAvail := fun _ => Except.ok 0 }

/-- Counterexample to C1 as stated: with the timer armed at wall instant
    0, letting 24 hours of wall-clock time elapse makes the timer channel
    deliver, and the session pushes round 1 although the trace contains no
    advance signal at all. -/
theorem testMode_timer_push_at_24h :
    (testLoopRun cfgTrivial (initTestLoop 0 1 0) [TestEvent.timerC 86400000]).pushed = [1]
    ∧ TestEvent.trigger ∉ [TestEvent.timerC 86400000] := by
  constructor
  · decide
  · decide

/-- Witness for the amended C1: ten simulated seconds of waiting plus a
    cancellation produce zero pushes. -/
theorem testMode_no_push_without_trigger_witness :
    (testLoopRun cfgTrivial (initTestLoop 0 1 0)
      [TestEvent.timerC 10000, TestEvent.cancel]).pushed = [] :=
  testMode_no_push_without_trigger cfgTrivial 0 1 0
    [TestEvent.timerC 10000, TestEvent.cancel]
    (by
      intro e he
      simp only [List.mem_cons, List.not_mem_nil, or_false] at he
      rcases he with rfl | rfl <;> decide)
    (by
      intro w hw
      simp only [List.mem_cons, List.not_mem_nil, or_false] at hw
      rcases hw with h | h
      · cases h; omega
      · cases h)

/-- C8: at session start, now is the fixed simulated time when TestNowMS
    is set and the wall clock in milliseconds otherwise, and the first
    segment number pushed by the loop is exactly one more than the last
    segment number available at now per the asset reference
    representation (lines 238-249). -/
theorem first_segment_number (findLast : Int → Int) (calcAvail : Nat → Except String Int)
    (t : Option Int) (w nr a : Int)
    (h : startScheduleModel findLast calcAvail t w = Except.ok (nr, a)) :
    nr = findLast (nowAtStart t w) + 1
    ∧ (∀ x, t = some x → nr = findLast x + 1)
    ∧ (t = none → nr = findLast w + 1)
    ∧ ∀ (cfg : TestLoopCfg) (armWallMS : Int) (evs : List TestEvent),
        (testLoopRun cfg (initTestLoop armWallMS nr a) evs).pushed = []
        ∨ (testLoopRun cfg (initTestLoop armWallMS nr a) evs).pushed.head? = some nr := by
  have hnr : nr = findLast (nowAtStart t w) + 1 := by
    unfold startScheduleModel at h
    rcases hc : calcAvail (toUInt32Wrap (findLast (nowAtStart t w) + 1)) with e | av
    · simp [hc] at h
    · simp [hc] at h
      exact h.1.symm
  refine ⟨hnr, ?_, ?_, ?_⟩
  · intro x hx
    subst hx
    simpa [nowAtStart] using hnr
  · intro hx
    subst hx
    simpa [nowAtStart] using hnr
  · intro cfg armWallMS evs
    exact testLoopRun_first_push cfg evs (initTestLoop armWallMS nr a) rfl

/-- Concrete collaborator: two-second segments, last available segment
    number is now divided by 2000. -/
def findLastW : Int → Int := fun now => now / 2000

/-- Concrete collaborator: availability of segment n at 2000 n ms. -/
def calcAvailW : Nat → Except String Int := fun n => Except.ok (2000 * (n : Int))

/-- Witness for C8: at fixed simulated time 10000 ms with two-second
    segments the first pushed segment number is 5 + 1 = 6. -/
theorem first_segment_number_witness :
    (6 : Int) = findLastW (nowAtStart (some 10000) 99) + 1 :=
  (first_segment_number findLastW calcAvailW (some 10000) 99 6 12000 (by rfl)).1

theorem startInit_no_abort (env : InitEnv) :
    ∀ reps : List cmafRepData, (∀ rd ∈ reps, (initRepStep env rd).2 = false) →
      startInit env reps = (reps.flatMap (fun rd => (initRepStep env rd).1), false) := by
  intro reps
  induction reps with
  | nil => intro _; simp [startInit]
  | cons rd rest ih =>
    intro h
    have h1 : (initRepStep env rd).2 = false := h rd (List.mem_cons_self _ _)
    have h2 := ih (fun x hx => h x (List.mem_cons_of_mem _ hx))
    simp [startInit, h1, h2]

/-- C4: during session initialization, failures of the init-match kind or
    of the init-push kind (the asset-derived branch, lines 207-233) are
    recorded to the report but never abort start: the init loop reaches
    every representation, its report is the concatenation of the per
    representation lines, and the session still enters its segment loop
    (first-segment scheduling succeeds and yields a loop state). -/
theorem init_failures_nonfatal (env : InitEnv) (reps : List cmafRepData)
    (findLast : Int → Int) (calcAvail : Nat → Except String Int)
    (t : Option Int) (w : Int)
    (hsteps : ∀ rd ∈ reps, (initRepStep env rd).2 = false)
    (hsched : ∃ p, startScheduleModel findLast calcAvail t w = Except.ok p) :
    (startModel env reps findLast calcAvail t w).1.isSome = true
    ∧ (startModel env reps findLast calcAvail t w).2
        = reps.flatMap (fun rd => (initRepStep env rd).1)
    ∧ ∀ rd ∈ reps, (env.timeSubs rd).ok = false →
        (∀ e, env.matchInitErr rd = some e →
          s!"Error matching init segment: {e}" ∈ (startModel env reps findLast calcAvail t w).2)
        ∧ (∀ e, env.sendInitErr rd = some e →
          s!"error uploading init segment: {e}" ∈ (startModel env reps findLast calcAvail t w).2) := by
  obtain ⟨p, hp⟩ := hsched
  have hsi := startInit_no_abort env reps hsteps
  have hrep : (startModel env reps findLast calcAvail t w).2
      = reps.flatMap (fun rd => (initRepStep env rd).1) := by
    simp [startModel, hsi, hp]
  refine ⟨by simp [startModel, hsi, hp], hrep, ?_⟩
  intro rd hrd hts
  constructor
  · intro e he
    rw [hrep]
    refine List.mem_flatMap.mpr ⟨rd, hrd, ?_⟩
    simp [initRepStep, hts, he]
  · intro e he
    rw [hrep]
    refine List.mem_flatMap.mpr ⟨rd, hrd, ?_⟩
    simp [initRepStep, hts, he]

/-- Concrete video representation. -/
def rdV : cmafRepData :=
  { repID := "V300", contentType := "video", mimeType := "video/mp4",
    initPath := "V300/init.mp4", mediaPattern := "V300/$Number$.m4s" }

/-- Concrete audio representation. -/
def rdA : cmafRepData :=
  { repID := "A48", contentType := "audio", mimeType := "audio/mp4",
    initPath := "A48/init.mp4", mediaPattern := "A48/$Number$.m4s" }

/-- Concrete init environment: the video init match fails and the audio
    init push gets an HTTP failure; nothing matches time subtitles. -/
def initEnvW : InitEnv :=
  { timeSubs := fun _ => { ok := false, err := none }
    encodeErr := fun _ => none
    matchInitErr := fun rd => if rd.repID = "V300" then some "no match" else none
    matchIsInit := fun _ => true
    sendInitErr := fun rd => if rd.repID = "A48" then some "http 500" else none }

/-- Witness for C4: with a failed video init match and a failed audio
    init push the session still enters its segment loop. -/
theorem init_failures_nonfatal_witness :
    (startModel initEnvW [rdV, rdA] findLastW calcAvailW (some 10000) 0).1.isSome = true :=
  (init_failures_nonfatal initEnvW [rdV, rdA] findLastW calcAvailW (some 10000) 0
    (by
      intro rd hrd
      simp only [List.mem_cons, List.not_mem_nil, or_false] at hrd
      rcases hrd with rfl | rfl <;> decide)
    ⟨(6, 12000), by rfl⟩).1

/- Main segment loop, wall-clock mode (TestNowMS nil): the body executed
   after a wake-up, lines 281-329: push the current round, advance,
   recompute availability, re-read the clock, then run the inner drift
   loop (lines 302-327) and finally re-arm the timer (line 328). -/

/-- Collaborators of the wall-clock loop: sendMediaSegments outcome by
    (segment number, nowMS argument), calcSegmentAvailabilityTime, and
    the wall clock as a stream of successive readings. -/
structure WallCfg where
  sendRound : Int → Int → Option String
  calcAvail : Nat → Except String Int
  clock : Nat → Int

/-- State threaded through the wall-clock loop body. clockIdx counts the
    time.Now readings done so far; fuelOut marks a run that exhausted the
    modelling fuel of the drift loop (the Go loop is unbounded). -/
structure DriftState where
  nextSegNr : Int
  availabilityTime : Int
  nowMS : Int
  clockIdx : Nat
  pushed : List Int
  report : List String
  stopped : Bool
  fuelOut : Bool
  deriving DecidableEq, Repr

/-- Drift report line (line 307). -/
def driftMsg (a : Int) : String := s!"Segment availability time in the past: {a}"

/-- Inner drift-correction loop (lines 302-327): while the recomputed
    availability time is not strictly in the future, append the drift
    line, push the overdue round immediately, advance, recompute
    availability, re-read the clock and try again. Errors from the push
    or the availability computation stop the session. -/
def driftLoop (cfg : WallCfg) : Nat → DriftState → DriftState
  | 0, st =>
    if 0 < st.availabilityTime - st.nowMS then st else { st with fuelOut := true }
  | fuel + 1, st =>
    if 0 < st.availabilityTime - st.nowMS then st
    else
      match cfg.sendRound st.nextSegNr st.availabilityTime with
      | some e =>
        { st with
          pushed := st.pushed ++ [st.nextSegNr],
          report := st.report ++ [driftMsg st.availabilityTime,
            s!"Error sending media segments: {e}"],
          stopped := true }
      | none =>
        match cfg.calcAvail (toUInt32Wrap (st.nextSegNr + 1)) with
        | Except.error e =>
          { st with
            pushed := st.pushed ++ [st.nextSegNr],
            nextSegNr := st.nextSegNr + 1,
            report := st.report ++ [driftMsg st.availabilityTime,
              s!"Error calculating segment availability time: {e}"],
            stopped := true }
        | Except.ok a =>
          driftLoop cfg fuel
            { st with
              pushed := st.pushed ++ [st.nextSegNr],
              nextSegNr := st.nextSegNr + 1,
              availabilityTime := a,
              nowMS := cfg.clock st.clockIdx,
              clockIdx := st.clockIdx + 1,
              report := st.report ++ [driftMsg st.availabilityTime] }

/-- State right after a successful round push in wall-clock mode
    (lines 288-298): the round was pushed, the segment number advanced,
    availability recomputed to a, and the clock re-read. -/
def afterPushState (cfg : WallCfg) (st : DriftState) (a : Int) : DriftState :=
  { st with
    pushed := st.pushed ++ [st.nextSegNr],
    nextSegNr := st.nextSegNr + 1,
    availabilityTime := a,
    nowMS := cfg.clock st.clockIdx,
    clockIdx := st.clockIdx + 1 }

/-- Wall-clock loop body after a wake-up (lines 281-329): push the round,
    advance and recompute availability, read the clock, run the drift
    loop, and return the new state together with the delta the timer is
    re-armed with (none when the session stopped instead). -/
def wallIterAfterWake (cfg : WallCfg) (fuel : Nat) (st : DriftState) :
    DriftState × Option Int :=
  match cfg.sendRound st.nextSegNr st.availabilityTime with
  | some e =>
    ({ st with
       pushed := st.pushed ++ [st.nextSegNr],
       report := st.report ++ [s!"Error sending media segments: {e}"],
       stopped := true }, none)
  | none =>
    match cfg.calcAvail (toUInt32Wrap (st.nextSegNr + 1)) with
    | Except.error e =>
      ({ st with
         pushed := st.pushed ++ [st.nextSegNr],
         nextSegNr := st.nextSegNr + 1,
         report := st.report ++ [s!"Error calculating segment availability time: {e}"],
         stopped := true }, none)
    | Except.ok a =>
      let r := driftLoop cfg fuel (afterPushState cfg st a)
      if r.stopped || r.fuelOut then (r, none)
      else (r, some (r.availabilityTime - r.nowMS))

theorem driftLoop_noop (cfg : WallCfg) (fuel : Nat) (st : DriftState)
    (h : 0 < st.availabilityTime - st.nowMS) : driftLoop cfg fuel st = st := by
  cases fuel <;> simp [driftLoop, h]

theorem driftLoop_exit_future (cfg : WallCfg) :
    ∀ (fuel : Nat) (st : DriftState),
      (driftLoop cfg fuel st).stopped = false → (driftLoop cfg fuel st).fuelOut = false →
      0 < (driftLoop cfg fuel st).availabilityTime - (driftLoop cfg fuel st).nowMS := by
  intro fuel
  induction fuel with
  | zero =>
    intro st h1 h2
    by_cases hd : 0 < st.availabilityTime - st.nowMS
    · simp [driftLoop, hd]
    · simp [driftLoop, hd] at h2
  | succ f ih =>
    intro st h1 h2
    by_cases hd : 0 < st.availabilityTime - st.nowMS
    · simp [driftLoop, hd]
    · simp only [driftLoop, if_neg hd] at h1 h2 ⊢
      cases hs : cfg.sendRound st.nextSegNr st.availabilityTime with
      | some e => simp [hs] at h1
      | none =>
        cases hc : cfg.calcAvail (toUInt32Wrap (st.nextSegNr + 1)) with
        | error e => simp [hs, hc] at h1
        | ok a =>
          simp only [hs, hc] at h1 h2 ⊢
          exact ih _ h1 h2

theorem driftLoop_report_mono (cfg : WallCfg) (x : String) :
    ∀ (fuel : Nat) (st : DriftState), x ∈ st.report → x ∈ (driftLoop cfg fuel st).report := by
  intro fuel
  induction fuel with
  | zero =>
    intro st h
    by_cases hd : 0 < st.availabilityTime - st.nowMS <;> simpa [driftLoop, hd] using h
  | succ f ih =>
    intro st h
    by_cases hd : 0 < st.availabilityTime - st.nowMS
    · simpa [driftLoop, hd] using h
    · simp only [driftLoop, if_neg hd]
      cases hs : cfg.sendRound st.nextSegNr st.availabilityTime with
      | some e => simp [h]
      | none =>
        cases hc : cfg.calcAvail (toUInt32Wrap (st.nextSegNr + 1)) with
        | error e => simp [h]
        | ok a => exact ih _ (by simp [h])

theorem driftLoop_pushed_mono (cfg : WallCfg) (x : Int) :
    ∀ (fuel : Nat) (st : DriftState), x ∈ st.pushed → x ∈ (driftLoop cfg fuel st).pushed := by
  intro fuel
  induction fuel with
  | zero =>
    intro st h
    by_cases hd : 0 < st.availabilityTime - st.nowMS <;> simpa [driftLoop, hd] using h
  | succ f ih =>
    intro st h
    by_cases hd : 0 < st.availabilityTime - st.nowMS
    · simpa [driftLoop, hd] using h
    · simp only [driftLoop, if_neg hd]
      cases hs : cfg.sendRound st.nextSegNr st.availabilityTime with
      | some e => simp [h]
      | none =>
        cases hc : cfg.calcAvail (toUInt32Wrap (st.nextSegNr + 1)) with
        | error e => simp [h]
        | ok a => exact ih _ (by simp [h])

theorem driftLoop_overdue (cfg : WallCfg) (f : Nat) (st : DriftState)
    (h : st.availabilityTime ≤ st.nowMS) :
    driftMsg st.availabilityTime ∈ (driftLoop cfg (f + 1) st).report
    ∧ st.nextSegNr ∈ (driftLoop cfg (f + 1) st).pushed := by
  have hd : ¬ 0 < st.availabilityTime - st.nowMS := by omega
  simp only [driftLoop, if_neg hd]
  cases hs : cfg.sendRound st.nextSegNr st.availabilityTime with
  | some e => constructor <;> simp
  | none =>
    cases hc : cfg.calcAvail (toUInt32Wrap (st.nextSegNr + 1)) with
    | error e => constructor <;> simp
    | ok a2 =>
      constructor
      · exact driftLoop_report_mono cfg _ f _ (by simp)
      · exact driftLoop_pushed_mono cfg _ f _ (by simp)

/-- C2: in wall-clock mode, after a round is pushed and the next segment
    availability is recomputed: whenever that availability time is at or
    before the current wall-clock reading, the session appends the drift
    line and pushes that round immediately (no timer in between),
    repeating while needed; the loop ends only with a strictly future
    availability time, and the timer delta it re-arms with is positive.
    When the recomputed availability is already in the future, no extra
    round is pushed and the timer is armed with exactly that delta. -/
theorem wallClock_drift_correction (cfg : WallCfg) (fuel : Nat) (st : DriftState) (a : Int)
    (hfuel : 0 < fuel)
    (hstop : st.stopped = false) (hfo : st.fuelOut = false)
    (hsend : cfg.sendRound st.nextSegNr st.availabilityTime = none)
    (hca : cfg.calcAvail (toUInt32Wrap (st.nextSegNr + 1)) = Except.ok a) :
    (∀ d, (wallIterAfterWake cfg fuel st).2 = some d →
        0 < d ∧ d = (wallIterAfterWake cfg fuel st).1.availabilityTime
                    - (wallIterAfterWake cfg fuel st).1.nowMS)
    ∧ (a ≤ cfg.clock st.clockIdx →
        driftMsg a ∈ (wallIterAfterWake cfg fuel st).1.report
        ∧ (st.nextSegNr + 1) ∈ (wallIterAfterWake cfg fuel st).1.pushed)
    ∧ (cfg.clock st.clockIdx < a →
        (wallIterAfterWake cfg fuel st).1.pushed = st.pushed ++ [st.nextSegNr]
        ∧ (wallIterAfterWake cfg fuel st).2 = some (a - cfg.clock st.clockIdx)) := by
  have hfst : (wallIterAfterWake cfg fuel st).1
      = driftLoop cfg fuel (afterPushState cfg st a) := by
    simp only [wallIterAfterWake, hsend, hca]
    split <;> rfl
  refine ⟨?_, ?_, ?_⟩
  · intro d hd
    have h2 : (wallIterAfterWake cfg fuel st).2 = some d := hd
    simp only [wallIterAfterWake, hsend, hca] at h2
    by_cases hr : ((driftLoop cfg fuel (afterPushState cfg st a)).stopped
        || (driftLoop cfg fuel (afterPushState cfg st a)).fuelOut) = true
    · simp [hr] at h2
    · simp only [Bool.or_eq_true, not_or, Bool.not_eq_true] at hr
      simp [hr.1, hr.2] at h2
      have hpos := driftLoop_exit_future cfg fuel (afterPushState cfg st a) hr.1 hr.2
      rw [hfst]
      omega
  · intro ha
    obtain ⟨f, rfl⟩ : ∃ f, fuel = f + 1 := ⟨fuel - 1, by omega⟩
    have hover : (afterPushState cfg st a).availabilityTime
        ≤ (afterPushState cfg st a).nowMS := by
      simpa [afterPushState] using ha
    have hres := driftLoop_overdue cfg f (afterPushState cfg st a) hover
    rw [hfst]
    simpa [afterPushState] using hres
  · intro ha
    have hd : 0 < (afterPushState cfg st a).availabilityTime
        - (afterPushState cfg st a).nowMS := by
      simp only [afterPushState]
      omega
    have hnoop := driftLoop_noop cfg fuel (afterPushState cfg st a) hd
    constructor
    · rw [hfst, hnoop]
      simp [afterPushState]
    · have h1 : (afterPushState cfg st a).stopped = false := by
        simpa [afterPushState] using hstop
      have h2 : (afterPushState cfg st a).fuelOut = false := by
        simpa [afterPushState] using hfo
      simp only [wallIterAfterWake, hsend, hca, hnoop, h1, h2]
      simp [afterPushState]

/-- Concrete wall-clock collaborators: availability 1000 n for segment n,
    clock readings 2500, 2600, 2700, ..., pushes always succeed. -/
def cfgDriftW : WallCfg :=
  { sendRound := fun _ _ => none
    calcAvail := fun n => Except.ok (1000 * (n : Int))
    clock := fun k => 2500 + 100 * (k : Int) }

/-- Concrete loop state about to push round 1 whose availability was
    1000 ms. -/
def stDriftW : DriftState :=
  { nextSegNr := 1, availabilityTime := 1000, nowMS := 900, clockIdx := 0,
    pushed := [], report := [], stopped := false, fuelOut := false }

/-- Witness for C2: round 2 recomputes to availability 2000 ms while the
    clock already reads 2500 ms, so the drift line is recorded and round 2
    is pushed immediately. -/
theorem wallClock_drift_correction_witness :
    driftMsg 2000 ∈ (wallIterAfterWake cfgDriftW 3 stDriftW).1.report
    ∧ (2 : Int) ∈ (wallIterAfterWake cfgDriftW 3 stDriftW).1.pushed :=
  (wallClock_drift_correction cfgDriftW 3 stDriftW 2000 (by decide) rfl rfl rfl rfl).2.1
    (by decide)

/- Round push: sendMediaSegments (lines 403-444) and the per-unit
   behavior of sendMediaSegment (lines 446-483). -/

/-- Stand-in for the segEntries value produced by timeline generation
    (generateTimelineEntries lives in another file of the repository).
    The Go zero value is the empty entry list. -/
structure segEntries where
  entries : List Int
  deriving DecidableEq, Repr

/-- Classified outcome of writeSegment for one unit (lines 461-479). -/
inductive WriteSegErr where
  | notFound
  | tooEarly
  | gone
  | other (msg : String)
  deriving DecidableEq, Repr

/-- What one sendMediaSegment unit did. -/
inductive UnitOutcome where
  | completed
  | abortedNotFound
  | abortedTooEarly
  | abortedGone
  | abortedInternalError
  deriving DecidableEq, Repr

/-- Per-unit behavior of sendMediaSegment (lines 461-482): not-found,
    too-early and gone errors abort only this unit with a log line; any
    other error answers 500 through the bridge and aborts the unit; on
    success the unit signals no-more-data and waits for the request to
    finish. No outcome is ever propagated to the round. -/
def sendMediaSegmentUnit : Option WriteSegErr → UnitOutcome
  | none => UnitOutcome.completed
  | some WriteSegErr.notFound => UnitOutcome.abortedNotFound
  | some WriteSegErr.tooEarly => UnitOutcome.abortedTooEarly
  | some WriteSegErr.gone => UnitOutcome.abortedGone
  | some (WriteSegErr.other _) => UnitOutcome.abortedInternalError

/-- One dispatched unit of a round: representation, resolved segment part
    and outcome. -/
structure RoundUnit where
  repID : String
  segPart : String
  outcome : UnitOutcome
  deriving DecidableEq, Repr

/-- Collaborators of one sendMediaSegments round: generateTimelineEntries
    (with the wrap times and availability offset of this round already
    applied), generateTimelineEntriesFromRef, segEntries.lastTime,
    replaceTimeOrNr and the writeSegment outcome per representation; all
    live in other files of the repository. -/
structure RoundEnv where
  gen : String → segEntries
  genFromRef : segEntries → String → segEntries
  lastTime : segEntries → Int
  repl : String → Int → String
  writeSeg : cmafRepData → Option WriteSegErr

/-- Timeline-mode dispatch (lines 408-433): the representation at index 0
    generates the reference entries; later representations generate their
    own entries when their content type is video, text or image, derive
    them from the reference entries when audio, and any other content
    type makes sendMediaSegments return an error; each media pattern is
    filled with the last timestamp of the resolved entries. -/
def timelineUnits (env : RoundEnv) :
    Bool → segEntries → List cmafRepData → Except String (List RoundUnit)
  | _, _, [] => Except.ok []
  | isFirst, ref, rd :: rest =>
    let seRes : Except String segEntries :=
      if isFirst then Except.ok (env.gen rd.repID)
      else if rd.contentType = "video" ∨ rd.contentType = "text"
          ∨ rd.contentType = "image" then
        Except.ok (env.gen rd.repID)
      else if rd.contentType = "audio" then Except.ok (env.genFromRef ref rd.repID)
      else Except.error s!"unknown content type {rd.contentType}"
    match seRes with
    | Except.error e => Except.error e
    | Except.ok se =>
      match timelineUnits env false (if isFirst then se else ref) rest with
      | Except.error e => Except.error e
      | Except.ok units =>
        Except.ok ({ repID := rd.repID,
                     segPart := env.repl rd.mediaPattern (env.lastTime se),
                     outcome := sendMediaSegmentUnit (env.writeSeg rd) } :: units)

/-- Template-mode dispatch (lines 434-441): every media pattern is filled
    with the round segment number. -/
def templateUnits (env : RoundEnv) (nextSegNr : Int) (rds : List cmafRepData) :
    List RoundUnit :=
  rds.map (fun rd =>
    { repID := rd.repID, segPart := env.repl rd.mediaPattern nextSegNr,
      outcome := sendMediaSegmentUnit (env.writeSeg rd) })

/-- sendMediaSegments (lines 403-444): timeline or template dispatch,
    then wait for every unit; only the timeline unknown-content-type
    branch produces an error, every per-unit outcome is swallowed. -/
def sendMediaSegmentsModel (segTimelineFlag : Bool) (env : RoundEnv) (nextSegNr : Int)
    (rds : List cmafRepData) : Except String (List RoundUnit) :=
  if segTimelineFlag then timelineUnits env true { entries := [] } rds
  else Except.ok (templateUnits env nextSegNr rds)

/-- Specification reading of the timeline round (the spec wording of C3):
    the first representation in the list is the timing reference; every
    other representation generates its own entries when video, text or
    image and derives its entries from the reference entries when audio;
    each media pattern is filled with the last timestamp of the resolved
    entries, so an audio timestamp always comes through genFromRef applied
    to the reference entries, never through an independent generation. -/
def timelineUnitsSpec (env : RoundEnv) : List cmafRepData → List RoundUnit
  | [] => []
  | rd0 :: rest =>
    { repID := rd0.repID,
      segPart := env.repl rd0.mediaPattern (env.lastTime (env.gen rd0.repID)),
      outcome := sendMediaSegmentUnit (env.writeSeg rd0) } ::
    rest.map (fun rd =>
      { repID := rd.repID,
        segPart := env.repl rd.mediaPattern (env.lastTime
          (if rd.contentType = "audio" then env.genFromRef (env.gen rd0.repID) rd.repID
           else env.gen rd.repID)),
        outcome := sendMediaSegmentUnit (env.writeSeg rd) })

theorem timelineUnits_tail (env : RoundEnv) (ref : segEntries) :
    ∀ rest : List cmafRepData,
      (∀ rd ∈ rest, rd.contentType = "video" ∨ rd.contentType = "audio"
        ∨ rd.contentType = "text" ∨ rd.contentType = "image") →
      timelineUnits env false ref rest
        = Except.ok (rest.map (fun rd =>
            { repID := rd.repID,
              segPart := env.repl rd.mediaPattern (env.lastTime
                (if rd.contentType = "audio" then env.genFromRef ref rd.repID
                 else env.gen rd.repID)),
              outcome := sendMediaSegmentUnit (env.writeSeg rd) })) := by
  intro rest
  induction rest with
  | nil => intro _; simp [timelineUnits]
  | cons rd rest ih =>
    intro h
    have h0 := h rd (List.mem_cons_self _ _)
    have ht := ih (fun x hx => h x (List.mem_cons_of_mem _ hx))
    rcases h0 with hv | ha | htx | him
    · simp [timelineUnits, hv, ht]
    · simp [timelineUnits, ha, ht]
    · simp [timelineUnits, htx, ht]
    · simp [timelineUnits, him, ht]

theorem timelineUnits_spec_eq (env : RoundEnv) (rd0 : cmafRepData)
    (rest : List cmafRepData)
    (h : ∀ rd ∈ rest, rd.contentType = "video" ∨ rd.contentType = "audio"
      ∨ rd.contentType = "text" ∨ rd.contentType = "image") :
    timelineUnits env true { entries := [] } (rd0 :: rest)
      = Except.ok (timelineUnitsSpec env (rd0 :: rest)) := by
  have ht := timelineUnits_tail env (env.gen rd0.repID) rest h
  simp [timelineUnits, timelineUnitsSpec, ht]

/-- C3: for a timeline round whose non-reference representations are all
    of a known content type, the dispatched units are exactly those of
    the specification reading: the first representation is the timing
    reference, video, text and image representations generate entries
    independently, audio representations derive their entries from the
    reference entries, and every media pattern is filled with the last
    timestamp of the resolved entries. -/
theorem timeline_reference_authoritative (env : RoundEnv) (nextSegNr : Int)
    (rd0 : cmafRepData) (rest : List cmafRepData)
    (h : ∀ rd ∈ rest, rd.contentType = "video" ∨ rd.contentType = "audio"
      ∨ rd.contentType = "text" ∨ rd.contentType = "image") :
    sendMediaSegmentsModel true env nextSegNr (rd0 :: rest)
      = Except.ok (timelineUnitsSpec env (rd0 :: rest)) := by
  simpa [sendMediaSegmentsModel] using timelineUnits_spec_eq env rd0 rest h

/-- Concrete round environment for the timeline witness. -/
def roundEnvTimeline : RoundEnv :=
  { gen := fun id => { entries := if id = "V300" then [3000, 5000] else [999] }
    genFromRef := fun ref _ => { entries := ref.entries }
    lastTime := fun se => se.entries.getLastD 0
    repl := fun pat t => pat ++ "@" ++ toString t
    writeSeg := fun _ => none }

/-- Witness for C3 on a [video, audio] round: the audio timestamp comes
    from the reference (video) entries. -/
theorem timeline_reference_authoritative_witness :
    sendMediaSegmentsModel true roundEnvTimeline 7 [rdV, rdA]
      = Except.ok (timelineUnitsSpec roundEnvTimeline [rdV, rdA]) :=
  timeline_reference_authoritative roundEnvTimeline 7 rdV [rdA]
    (by
      intro rd hrd
      simp only [List.mem_cons, List.not_mem_nil, or_false] at hrd
      subst hrd
      decide)

/-- sendMediaSegments, viewed as the loop collaborator: its error (none
    when the round completed). -/
def sendRoundOfModel (flag : Bool) (env : RoundEnv) (rds : List cmafRepData) :
    Int → Int → Option String :=
  fun segNr _ =>
    match sendMediaSegmentsModel flag env segNr rds with
    | Except.ok _ => none
    | Except.error e => some e

/-- C5: per-segment production failures of kind not-found, too-early or
    gone abort only their own unit: the round still dispatches and joins
    one unit per representation, sendMediaSegments returns without error,
    and the session loop goes on to the next round (the state after the
    push is not stopped and the segment number advanced). -/
theorem per_segment_failures_nonfatal (flag : Bool) (env : RoundEnv)
    (rds : List cmafRepData) (ca : Nat → Except String Int) (st : TestLoopState) (a : Int)
    (hkinds : ∀ rd ∈ rds, env.writeSeg rd = some WriteSegErr.notFound
      ∨ env.writeSeg rd = some WriteSegErr.tooEarly
      ∨ env.writeSeg rd = some WriteSegErr.gone
      ∨ env.writeSeg rd = none)
    (htypes : flag = true → ∀ rd ∈ rds.drop 1,
      rd.contentType = "video" ∨ rd.contentType = "audio"
      ∨ rd.contentType = "text" ∨ rd.contentType = "image")
    (hstop : st.stopped = false)
    (hca : ca (toUInt32Wrap (st.nextSegNr + 1)) = Except.ok a) :
    (∃ units, sendMediaSegmentsModel flag env st.nextSegNr rds = Except.ok units
      ∧ units.length = rds.length
      ∧ units.map (fun u => u.outcome)
          = rds.map (fun rd => sendMediaSegmentUnit (env.writeSeg rd)))
    ∧ (pushRoundTest { sendRound := sendRoundOfModel flag env rds, calcAvail := ca } st).stopped
        = false
    ∧ (pushRoundTest { sendRound := sendRoundOfModel flag env rds, calcAvail := ca } st).nextSegNr
        = st.nextSegNr + 1 := by
  have hok : ∃ units, sendMediaSegmentsModel flag env st.nextSegNr rds = Except.ok units
      ∧ units.length = rds.length
      ∧ units.map (fun u => u.outcome)
          = rds.map (fun rd => sendMediaSegmentUnit (env.writeSeg rd)) := by
    cases flag with
    | false =>
      refine ⟨templateUnits env st.nextSegNr rds, by simp [sendMediaSegmentsModel], ?_, ?_⟩
      · simp [templateUnits]
      · simp [templateUnits, List.map_map]
    | true =>
      cases rds with
      | nil => exact ⟨[], by simp [sendMediaSegmentsModel, timelineUnits], by simp, by simp⟩
      | cons rd0 rest =>
        have ht := timelineUnits_spec_eq env rd0 rest (by simpa using htypes rfl)
        refine ⟨timelineUnitsSpec env (rd0 :: rest), ?_, ?_, ?_⟩
        · simpa [sendMediaSegmentsModel] using ht
        · simp [timelineUnitsSpec]
        · simp [timelineUnitsSpec, List.map_map]
  have hok2 := hok
  obtain ⟨units, hu, -, -⟩ := hok2
  have hsr : sendRoundOfModel flag env rds st.nextSegNr st.availabilityTime = none := by
    simp [sendRoundOfModel, hu]
  refine ⟨hok, ?_, ?_⟩
  · simp [pushRoundTest, hsr, hca, hstop]
  · simp [pushRoundTest, hsr, hca]

/-- Concrete round environment where the video segment is not found and
    the audio write succeeds. -/
def roundEnvFail : RoundEnv :=
  { gen := fun _ => { entries := [0] }
    genFromRef := fun ref _ => { entries := ref.entries }
    lastTime := fun se => se.entries.getLastD 0
    repl := fun pat t => pat ++ "@" ++ toString t
    writeSeg := fun rd => if rd.repID = "V300" then some WriteSegErr.notFound else none }

/-- Witness for C5: with the video unit failing not-found in a template
    round, the loop state after the push is not stopped. -/
theorem per_segment_failures_nonfatal_witness :
    (pushRoundTest
      { sendRound := sendRoundOfModel false roundEnvFail [rdV, rdA],
        calcAvail := calcAvailW }
      (initTestLoop 0 1 2000)).stopped = false :=
  (per_segment_failures_nonfatal false roundEnvFail [rdV, rdA] calcAvailW
    (initTestLoop 0 1 2000) 4000
    (by
      intro rd hrd
      simp only [List.mem_cons, List.not_mem_nil, or_false] at hrd
      rcases hrd with rfl | rfl <;> decide)
    (by intro hf; cases hf)
    rfl
    (by rfl)).2.1

/- Streaming bridge: cmafSource.Read (lines 562-589). -/

/-- What the polling loop of Read can observe when it finds the buffer
    empty: context cancellation ready, the no-more-data channel ready, or
    the 250 ms sleep of the default branch, during which Write (lines
    549-555) may have appended bytes under the lock. -/
inductive PollEvent where
  | ctxDone
  | noMore
  | sleep (written : List Nat)
  deriving DecidableEq, Repr

/-- Result of one Read call: data returned to the caller plus the bytes
    retained in the buffer, or end-of-stream. -/
inductive ReadOutcome where
  | data (returned retained : List Nat)
  | eof
  deriving DecidableEq, Repr

/-- cmafSource.Read (lines 562-589) over a trace of poll observations.
    With a non-empty buffer, copy(p, c.buf) moves min(len p, len buf)
    bytes, the head of the buffer, and the rest is retained (the buffer
    keeps the bytes from index n onward, emptied when all was copied;
    lines 570-578). With an empty
    buffer the select returns EOF when cancellation or the no-more signal
    is ready, and otherwise sleeps and polls again with whatever Write
    appended meanwhile. none models a call still blocked after the
    observed trace. -/
def cmafSourceRead (reqLen : Nat) : List PollEvent → List Nat → Option ReadOutcome
  | evs, buf =>
    if buf.isEmpty then
      match evs with
      | [] => none
      | PollEvent.ctxDone :: _ => some ReadOutcome.eof
      | PollEvent.noMore :: _ => some ReadOutcome.eof
      | PollEvent.sleep bs :: rest => cmafSourceRead reqLen rest (buf ++ bs)
    else
      some (ReadOutcome.data (buf.take reqLen) (buf.drop reqLen))

theorem cmafSourceRead_nonempty (reqLen : Nat) (evs : List PollEvent) (buf : List Nat)
    (h : buf ≠ []) :
    cmafSourceRead reqLen evs buf
      = some (ReadOutcome.data (buf.take reqLen) (buf.drop reqLen)) := by
  cases buf with
  | nil => exact absurd rfl h
  | cons b bs =>
    cases evs with
    | nil => simp [cmafSourceRead]
    | cons e rest => cases e <;> simp [cmafSourceRead]

theorem cmafSourceRead_idle (reqLen : Nat) :
    ∀ evs : List PollEvent, (∀ e ∈ evs, e = PollEvent.sleep []) →
      cmafSourceRead reqLen evs [] = none := by
  intro evs
  induction evs with
  | nil => intro _; simp [cmafSourceRead]
  | cons e rest ih =>
    intro h
    have he := h e (List.mem_cons_self _ _)
    subst he
    have := ih (fun x hx => h x (List.mem_cons_of_mem _ hx))
    simpa [cmafSourceRead] using this

theorem cmafSourceRead_term (reqLen : Nat) :
    ∀ (k : Nat) (rest : List PollEvent) (ev : PollEvent),
      ev = PollEvent.ctxDone ∨ ev = PollEvent.noMore →
      cmafSourceRead reqLen (List.replicate k (PollEvent.sleep []) ++ (ev :: rest)) []
        = some ReadOutcome.eof := by
  intro k
  induction k with
  | zero =>
    intro rest ev hev
    rcases hev with rfl | rfl <;> simp [cmafSourceRead]
  | succ n ih =>
    intro rest ev hev
    have := ih rest ev hev
    simpa [cmafSourceRead, List.replicate_succ] using this

theorem cmafSourceRead_data_arrives (reqLen : Nat) :
    ∀ (k : Nat) (bs : List Nat) (rest : List PollEvent), bs ≠ [] →
      cmafSourceRead reqLen (List.replicate k (PollEvent.sleep []) ++ (PollEvent.sleep bs :: rest)) []
        = some (ReadOutcome.data (bs.take reqLen) (bs.drop reqLen)) := by
  intro k
  induction k with
  | zero =>
    intro bs rest h
    have := cmafSourceRead_nonempty reqLen rest bs h
    simpa [cmafSourceRead] using this
  | succ n ih =>
    intro bs rest h
    have := ih bs rest h
    simpa [cmafSourceRead, List.replicate_succ] using this

/-- C9: Read with a non-empty buffer returns at most the requested
    number of bytes, namely the head of the buffer, and retains the rest
    for the next call; with an empty buffer it stays blocked while only
    idle polls happen, reports end-of-stream as soon as a termination
    signal (cancellation or explicit close) is observed, and returns
    newly written data once a write lands during the polling sleep. -/
theorem cmafSource_read_spec (reqLen : Nat) (buf : List Nat) (evs : List PollEvent) :
    (buf ≠ [] →
      cmafSourceRead reqLen evs buf
        = some (ReadOutcome.data (buf.take reqLen) (buf.drop reqLen))
      ∧ (buf.take reqLen).length ≤ reqLen
      ∧ buf.take reqLen ++ buf.drop reqLen = buf)
    ∧ (buf = [] → (∀ e ∈ evs, e = PollEvent.sleep []) →
        cmafSourceRead reqLen evs buf = none)
    ∧ (buf = [] → ∀ (k : Nat) (rest : List PollEvent) (ev : PollEvent),
        ev = PollEvent.ctxDone ∨ ev = PollEvent.noMore →
        evs = List.replicate k (PollEvent.sleep []) ++ (ev :: rest) →
        cmafSourceRead reqLen evs buf = some ReadOutcome.eof)
    ∧ (buf = [] → ∀ (k : Nat) (bs : List Nat) (rest : List PollEvent), bs ≠ [] →
        evs = List.replicate k (PollEvent.sleep []) ++ (PollEvent.sleep bs :: rest) →
        cmafSourceRead reqLen evs buf
          = some (ReadOutcome.data (bs.take reqLen) (bs.drop reqLen))) := by
  refine ⟨?_, ?_, ?_, ?_⟩
  · intro h
    exact ⟨cmafSourceRead_nonempty reqLen evs buf h,
      by simp,
      List.take_append_drop reqLen buf⟩
  · intro hb h
    subst hb
    exact cmafSourceRead_idle reqLen evs h
  · intro hb k rest ev hev hevs
    subst hb
    subst hevs
    exact cmafSourceRead_term reqLen k rest ev hev
  · intro hb k bs rest h hevs
    subst hb
    subst hevs
    exact cmafSourceRead_data_arrives reqLen k bs rest h

/-- Witness for C9: a Read that found the buffer empty, slept once, and
    then saw cancellation reports end-of-stream. -/
theorem cmafSource_read_spec_witness :
    cmafSourceRead 4 [PollEvent.sleep [], PollEvent.ctxDone] [] = some ReadOutcome.eof :=
  (cmafSource_read_spec 4 [] [PollEvent.sleep [], PollEvent.ctxDone]).2.2.1 rfl 1 []
    PollEvent.ctxDone (Or.inl rfl) rfl
